import Mathlib

/-!
Verification of the NEORV32 CPU-integration module (`neorv32/core.py`).

The module binds the NEORV32 processor core into the LiteX framework:
a variant/flag table (`GCC_FLAGS`), a VHDL source-acquisition loop that
downloads each missing file with `wget`, a GHDL/Yosys conversion script,
and a component descriptor (`NEORV32`) holding the reset vector and the
two Wishbone bus endpoints, finalized into an `Instance` record.

The embedding below translates the Python code shallowly:
  * the filesystem is a list of existing paths;
  * the transport (`wget`) is an oracle `String → Bool` telling, per
    source name, whether the download succeeds (on success the file
    appears; `os.system`'s return value is discarded by the code);
  * the external `yosys` call is an oracle exit status (`subprocess.call`
    result); a non-zero status raises `OSError` in the code, modelled as
    `Except.error`;
  * the descriptor is a record; `__init__`, `set_reset_address` and
    `do_finalize` are explicit state transformers;
  * `platform.add_source`, the written `.ys` script and the fetch and
    conversion counters are recorded in a `World` state.
-/

namespace Neorv32

/-- `CPU_VARIANTS` from the source: the only supported variant. -/
def CPU_VARIANTS : List String := ["standard"]

/-- The `GCC_FLAGS` dict: variant id to flag string (note the source's
literal string has five spaces between the two flags). A missing key is
`none`, matching Python's `KeyError` on dict lookup. -/
def GCC_FLAGS : String → Option String
  | "standard" => some "-march=rv32i     -mabi=ilp32"
  | _ => none

/-- The `gcc_flags` property: looks up `GCC_FLAGS[self.variant]` and
appends `" -D__neorv32__ "`. `none` models the propagated `KeyError`. -/
def gcc_flags (variant : String) : Option String :=
  match GCC_FLAGS variant with
  | none => none
  | some f => some (f ++ " -D__neorv32__ ")

/-- Split a flag string into its whitespace-separated tokens. -/
def flagTokens (s : String) : List String :=
  ((s.data.splitOn ' ').filter (fun tok => tok ≠ [])).map String.mk

/-- The VHDL source manifest of `add_sources`, in source order. -/
def sources : List String :=
  [ "neorv32_package.vhd"
  , "neorv32_cpu.vhd"
  , "neorv32_cpu_alu.vhd"
  , "neorv32_cpu_cp_bitmanip.vhd"
  , "neorv32_cpu_cp_cfu.vhd"
  , "neorv32_cpu_cp_fpu.vhd"
  , "neorv32_cpu_cp_muldiv.vhd"
  , "neorv32_cpu_cp_shifter.vhd"
  , "neorv32_cpu_bus.vhd"
  , "neorv32_cpu_control.vhd"
  , "neorv32_cpu_decompressor.vhd"
  , "neorv32_cpu_regfile.vhd" ]

/-- Local path of a manifest entry: the code tests `os.path.exists`
on the f-string `rtl/{source}`. -/
def rtlPath (s : String) : String := "rtl/" ++ s

/-- The download loop of `add_sources`: for each source in manifest
order, if `rtl/{source}` does not exist, run `wget` (one fetch
operation, counted). On transport success the file appears; the exit
status of `os.system` is discarded either way, exactly as in the code.
Returns the final filesystem and the number of fetch operations. -/
def downloadLoop (t : String → Bool) : List String → List String → List String × Nat
  | [], fs => (fs, 0)
  | s :: rest, fs =>
    if rtlPath s ∈ fs then downloadLoop t rest fs
    else
      let fs1 := if t s then rtlPath s :: fs else fs
      let r := downloadLoop t rest fs1
      (r.1, r.2 + 1)

/-- `os.path.dirname(__file__)` of the module, kept symbolic. -/
def cdir : String := "neorv32"

/-- Output path of the converted artifact, `os.path.join(cdir, "neorv32.v")`. -/
def neorv32_v : String := cdir ++ "/neorv32.v"

/-- Path of the written conversion script, `os.path.join(cdir, "neorv32.ys")`. -/
def neorv32_ys : String := cdir ++ "/neorv32.ys"

/-- The Yosys script lines built by `add_sources`: the GHDL dialect
line (`--std=08`), one line per source in manifest order, the top
entity election, assertion stripping, and the verilog write. -/
def buildYs (srcs : List String) : List String :=
  ["ghdl --ieee=synopsys -fexplicit -frelaxed-rules --std=08 \\"]
  ++ srcs.map (fun s => rtlPath s ++ " \\")
  ++ [ "-e neorv32_cpu"
     , "chformal -assert -remove"
     , "write_verilog " ++ neorv32_v ]

/-- The two external oracles of a construction run: per-file transport
success and the exit status of the `yosys` subprocess. -/
structure Toolchain where
  transport : String → Bool
  yosysExit : Nat

/-- Ambient state threaded through `add_sources`: the filesystem, a
fetch-operation counter, a conversion-invocation counter, the
platform's registered source files, and the last written script. -/
structure World where
  files : List String
  fetchCount : Nat
  convertCount : Nat
  platformSources : List String
  script : Option (String × List String)
deriving DecidableEq

/-- The `OSError` message raised when the `yosys` call exits non-zero. -/
def conversionError : String :=
  "Unable to convert NEORV32 CPU to verilog, please check your GHDL-Yosys-plugin install."

/-- `NEORV32.add_sources`: download missing sources, write the `.ys`
script, invoke yosys (counted), raise on non-zero exit, otherwise hand
the artifact path to `platform.add_source`. -/
def add_sources (tc : Toolchain) (w : World) : Except String World :=
  let r := downloadLoop tc.transport sources w.files
  let w1 : World := { w with files := r.1, fetchCount := w.fetchCount + r.2 }
  let w2 : World := { w1 with
    script := some (neorv32_ys, buildYs sources)
    convertCount := w1.convertCount + 1 }
  if tc.yosysExit ≠ 0 then Except.error conversionError
  else Except.ok { w2 with platformSources := w2.platformSources ++ [neorv32_v] }

/-- The `NEORV32` descriptor state. Signals and Wishbone interfaces are
identified by allocation ids (`Nat`); `cpu_params` is the ordered
key-value dict; `specials` collects the emitted `Instance` records. -/
structure NEORV32 where
  platform : Nat
  variant : String
  reset : Nat
  ibus : Nat
  dbus : Nat
  periph_buses : List Nat
  memory_buses : List Nat
  cpu_params : List (String × Nat)
  reset_address : Option Nat
  specials : List (String × List (String × Nat))
deriving DecidableEq

/-- Python `dict.update` with a single key: replace in place when the
key is present, append otherwise (insertion order preserved). -/
def updateParam (ps : List (String × Nat)) (k : String) (v : Nat) :
    List (String × Nat) :=
  if ps.any (fun p => p.1 == k) then
    ps.map (fun p => if p.1 == k then (k, v) else p)
  else ps ++ [(k, v)]

/-- `NEORV32.__init__(platform, variant)`: records the variant without
any table lookup, allocates the reset signal and the two fresh Wishbone
interfaces, sets `periph_buses = [ibus, dbus]`, `memory_buses = []`,
`cpu_params = dict()`, leaves the reset address unset, then calls
`add_sources(platform)`; its error aborts construction. -/
def NEORV32.init (platform : Nat) (variant : String) (tc : Toolchain)
    (w : World) (fresh : Nat) : Except String (NEORV32 × World) :=
  let self : NEORV32 :=
    { platform := platform
      variant := variant
      reset := fresh
      ibus := fresh + 1
      dbus := fresh + 2
      periph_buses := [fresh + 1, fresh + 2]
      memory_buses := []
      cpu_params := []
      reset_address := none
      specials := [] }
  match add_sources tc w with
  | Except.error e => Except.error e
  | Except.ok w' => Except.ok (self, w')

/-- `NEORV32.set_reset_address`: store the address and update the
single `p_RESET_PC` entry of `cpu_params`. -/
def NEORV32.set_reset_address (self : NEORV32) (reset_address : Nat) : NEORV32 :=
  { self with
    reset_address := some reset_address
    cpu_params := updateParam self.cpu_params "p_RESET_PC" reset_address }

/-- `NEORV32.do_finalize`: `assert hasattr(self, "reset_address")`,
modelled as an error when the address was never set; otherwise append
the `Instance("neorv32_cpu", **self.cpu_params)` record to `specials`. -/
def NEORV32.do_finalize (self : NEORV32) : Except String NEORV32 :=
  match self.reset_address with
  | none => Except.error "AssertionError: finalize before set_reset_address"
  | some _ =>
    Except.ok { self with
      specials := self.specials ++ [("neorv32_cpu", self.cpu_params)] }

/-- An all-succeeding toolchain, for concrete runs. -/
def tc0 : Toolchain := ⟨fun _ => true, 0⟩

/-- An empty initial world. -/
def w0 : World := ⟨[], 0, 0, [], none⟩

-- Theorems ----------------------------------------------------------------

/-- C3 counterexample: the `gcc_flags` property of the "standard"
variant is not the bare table entry `-march=rv32i -mabi=ilp32`: the
code appends `" -D__neorv32__ "` (and the table entry itself spells
the two flags with five spaces between them). -/
theorem c3_counterexample :
    gcc_flags "standard" ≠ some "-march=rv32i -mabi=ilp32" ∧
    (gcc_flags "standard").map flagTokens ≠
      some ["-march=rv32i", "-mabi=ilp32"] := by
  constructor <;> decide

/-- C3 amended: `gcc_flags "standard"` equals the `GCC_FLAGS` table
entry for "standard" with `" -D__neorv32__ "` appended; as a token
sequence it is the variant's two flags plus the extra `-D__neorv32__`
define. -/
theorem c3_gcc_flags_value :
    gcc_flags "standard" =
      some ("-march=rv32i     -mabi=ilp32" ++ " -D__neorv32__ ") ∧
    (gcc_flags "standard").map flagTokens =
      some ["-march=rv32i", "-mabi=ilp32", "-D__neorv32__"] := by
  constructor <;> decide

/-- Prefixing with `rtl/` is injective on source names. -/
theorem rtlPath_injective {a b : String} (h : rtlPath a = rtlPath b) : a = b := by
  apply String.ext
  have hd := congrArg String.data h
  simp only [rtlPath, String.data_append] at hd
  exact List.append_cancel_left hd

/-- The download loop never removes files. -/
theorem downloadLoop_mono (t : String → Bool) (srcs : List String) :
    ∀ (fs : List String) {x : String}, x ∈ fs → x ∈ (downloadLoop t srcs fs).1 := by
  induction srcs with
  | nil => intro fs x hx; simpa [downloadLoop] using hx
  | cons a rest ih =>
    intro fs x hx
    by_cases hmem : rtlPath a ∈ fs
    · simpa [downloadLoop, hmem] using ih fs hx
    · by_cases hta : t a
      · simpa [downloadLoop, hmem, hta] using ih (rtlPath a :: fs) (List.mem_cons_of_mem _ hx)
      · simpa [downloadLoop, hmem, hta] using ih fs hx

/-- With a transport that always succeeds, every manifest file is
present after the loop. -/
theorem downloadLoop_complete {t : String → Bool} (ht : ∀ s, t s = true)
    (srcs : List String) :
    ∀ (fs : List String) {s : String}, s ∈ srcs →
      rtlPath s ∈ (downloadLoop t srcs fs).1 := by
  induction srcs with
  | nil => intro fs s hs; cases hs
  | cons a rest ih =>
    intro fs s hs
    by_cases hmem : rtlPath a ∈ fs
    · rcases List.mem_cons.mp hs with rfl | hs'
      · simpa [downloadLoop, hmem] using downloadLoop_mono t rest fs hmem
      · simpa [downloadLoop, hmem] using ih fs hs'
    · have hta : t a = true := ht a
      rcases List.mem_cons.mp hs with rfl | hs'
      · simpa [downloadLoop, hmem, hta] using
          downloadLoop_mono t rest (rtlPath s :: fs) (List.mem_cons_self _ _)
      · simpa [downloadLoop, hmem, hta] using ih (rtlPath a :: fs) hs'

/-- A loop over a manifest whose files all exist fetches nothing and
changes nothing. -/
theorem downloadLoop_all_present (t : String → Bool) (srcs : List String)
    (fs : List String) (h : ∀ s ∈ srcs, rtlPath s ∈ fs) :
    downloadLoop t srcs fs = (fs, 0) := by
  induction srcs with
  | nil => rfl
  | cons a rest ih =>
    have ha : rtlPath a ∈ fs := h a (List.mem_cons_self _ _)
    simpa [downloadLoop, ha] using ih (fun s hs => h s (List.mem_cons_of_mem _ hs))

/-- On a duplicate-free manifest, the number of fetch operations is
exactly the number of initially missing files, for every transport:
a failed fetch (which leaves the file absent) never stops the loop
from attempting all remaining missing files. -/
theorem downloadLoop_count (t : String → Bool) (srcs : List String)
    (hnd : srcs.Nodup) :
    ∀ fs : List String,
      (downloadLoop t srcs fs).2 =
        (srcs.filter (fun s => !(decide (rtlPath s ∈ fs)))).length := by
  induction srcs with
  | nil => intro fs; rfl
  | cons a rest ih =>
    intro fs
    obtain ⟨ha, hrest⟩ := List.nodup_cons.mp hnd
    by_cases hmem : rtlPath a ∈ fs
    · simp [downloadLoop, hmem, ih hrest fs]
    · have hfilter :
          (rest.filter
            (fun s => !(decide (rtlPath s = rtlPath a)) &&
                      !(decide (rtlPath s ∈ fs)))).length =
            (rest.filter (fun s => !(decide (rtlPath s ∈ fs)))).length := by
        congr 1
        apply List.filter_congr
        intro s hs
        have hne : rtlPath s ≠ rtlPath a := fun hcontra =>
          ha (by simpa [rtlPath_injective hcontra] using hs)
        simp [hne]
      by_cases hta : t a
      · simp [downloadLoop, hmem, hta, ih hrest (rtlPath a :: fs),
          List.mem_cons, hfilter]
      · simp [downloadLoop, hmem, hta, ih hrest fs]

/-- A transport that fails on the first manifest file only. -/
def failFirstTransport : String → Bool := fun s => !(s == "neorv32_package.vhd")

/-- C1 counterexample: with a transport that fails on the first
manifest file, the download loop of `add_sources` does not stop: it
performs all 12 fetch operations, the files after the failed one are
fetched (e.g. `rtl/neorv32_cpu.vhd` exists afterwards), and no error
of any kind is signalled — only the failed file is left absent. -/
theorem c1_counterexample :
    (downloadLoop failFirstTransport sources []).2 = 12 ∧
    rtlPath "neorv32_cpu.vhd" ∈ (downloadLoop failFirstTransport sources []).1 ∧
    rtlPath "neorv32_package.vhd" ∉ (downloadLoop failFirstTransport sources []).1 := by
  refine ⟨by decide, by decide, by decide⟩

/-- C1 amended: the download loop ignores transport failures entirely
(`os.system`'s status is discarded): for every transport and every
initial filesystem it runs to completion and performs one fetch
operation per initially-missing manifest file — a failure never
prevents the fetch of any subsequent missing file, and no
`AcquisitionFailed` error exists. -/
theorem c1_failure_does_not_abort (t : String → Bool) (fs : List String) :
    (downloadLoop t sources fs).2 =
      (sources.filter (fun s => !(decide (rtlPath s ∈ fs)))).length :=
  downloadLoop_count t sources (by decide) fs

/-- C5: acquisition is idempotent. A file already present is never
fetched (a manifest whose files all exist yields zero fetch operations
and an unchanged filesystem), and when the transport succeeds, running
the loop a second time on the filesystem produced by the first run
performs zero fetch operations. -/
theorem c5_ensure_idempotent (t : String → Bool) (srcs : List String)
    (fs : List String) (ht : ∀ s, t s = true) :
    downloadLoop t srcs (downloadLoop t srcs fs).1 =
      ((downloadLoop t srcs fs).1, 0) ∧
    ∀ gs : List String, (∀ s ∈ srcs, rtlPath s ∈ gs) →
      downloadLoop t srcs gs = (gs, 0) := by
  refine ⟨?_, fun gs hgs => downloadLoop_all_present t srcs gs hgs⟩
  exact downloadLoop_all_present t srcs _ (fun s hs => downloadLoop_complete ht srcs fs hs)

/-- C5 witness: concrete second run over the actual manifest from an
empty directory with an all-succeeding transport. -/
theorem c5_witness :
    downloadLoop (fun _ => true) sources
        (downloadLoop (fun _ => true) sources []).1 =
      ((downloadLoop (fun _ => true) sources []).1, 0) ∧
    ∀ gs : List String, (∀ s ∈ sources, rtlPath s ∈ gs) →
      downloadLoop (fun _ => true) sources gs = (gs, 0) :=
  c5_ensure_idempotent (fun _ => true) sources [] (fun _ => rfl)

/-- Characterisation of a successful construction: `__init__` succeeds
exactly when the yosys call exits 0, and then the produced descriptor
and world are fully determined. -/
theorem init_ok_iff (p : Nat) (v : String) (tc : Toolchain) (w : World)
    (fresh : Nat) (s : NEORV32) (w' : World) :
    NEORV32.init p v tc w fresh = Except.ok (s, w') ↔
      tc.yosysExit = 0 ∧
      s = { platform := p, variant := v, reset := fresh, ibus := fresh + 1,
            dbus := fresh + 2, periph_buses := [fresh + 1, fresh + 2],
            memory_buses := [], cpu_params := [], reset_address := none,
            specials := [] } ∧
      w' = { files := (downloadLoop tc.transport sources w.files).1
             fetchCount := w.fetchCount + (downloadLoop tc.transport sources w.files).2
             convertCount := w.convertCount + 1
             platformSources := w.platformSources ++ [neorv32_v]
             script := some (neorv32_ys, buildYs sources) } := by
  unfold NEORV32.init add_sources
  by_cases h0 : tc.yosysExit = 0
  · simp only [h0, ne_eq, not_true_eq_false, if_neg, ite_false]
    constructor
    · intro h
      cases h
      exact ⟨trivial, rfl, rfl⟩
    · rintro ⟨-, rfl, rfl⟩
      rfl
  · simp only [if_pos h0]
    constructor
    · intro h; cases h
    · rintro ⟨h, -, -⟩; exact absurd h h0

/-- C2 counterexample: constructing with a variant id absent from
`GCC_FLAGS` does not fail — `__init__` never consults the table, so
construction with variant `"nonstandard"` succeeds. -/
theorem c2_counterexample :
    GCC_FLAGS "nonstandard" = none ∧
    NEORV32.init 7 "nonstandard" tc0 w0 0 =
      Except.ok
        ({ platform := 7, variant := "nonstandard", reset := 0, ibus := 1,
           dbus := 2, periph_buses := [1, 2], memory_buses := [],
           cpu_params := [], reset_address := none, specials := [] },
         { files := (downloadLoop tc0.transport sources []).1
           fetchCount := 12, convertCount := 1
           platformSources := [neorv32_v]
           script := some (neorv32_ys, buildYs sources) }) := by
  constructor
  · rfl
  · rfl

/-- C2 amended: an unknown variant id is not detected at construction:
`create` succeeds (whenever the conversion step does) and stores the
unknown id; the lookup failure surfaces only when the `gcc_flags`
property is accessed, where it is a hard error (`none`), never a
silent default. -/
theorem c2_unknown_variant_deferred (v : String) (hv : GCC_FLAGS v = none)
    (p fresh : Nat) (tc : Toolchain) (w : World) (h0 : tc.yosysExit = 0) :
    gcc_flags v = none ∧
    ∃ s w', NEORV32.init p v tc w fresh = Except.ok (s, w') ∧ s.variant = v := by
  refine ⟨by simp [gcc_flags, hv], ?_⟩
  refine ⟨_, _, (init_ok_iff p v tc w fresh _ _).mpr ⟨h0, rfl, rfl⟩, rfl⟩

/-- C2 witness: concrete unknown variant `"rv64gc"` with a succeeding
toolchain. -/
theorem c2_witness :
    gcc_flags "rv64gc" = none ∧
    ∃ s w', NEORV32.init 3 "rv64gc" tc0 w0 5 = Except.ok (s, w') ∧
      s.variant = "rv64gc" :=
  c2_unknown_variant_deferred "rv64gc" rfl 3 5 tc0 w0 rfl

/-- C6: a non-zero exit status of the yosys subprocess makes
construction fail with the `OSError` whose diagnostic points at the
GHDL-Yosys-plugin install; the error propagates out of `__init__`
(aborting construction), so no descriptor — and hence no `Instance`
record — can be produced from that construction. -/
theorem c6_toolchain_error (p : Nat) (v : String) (tc : Toolchain)
    (w : World) (fresh : Nat) (h : tc.yosysExit ≠ 0) :
    NEORV32.init p v tc w fresh =
      Except.error
        "Unable to convert NEORV32 CPU to verilog, please check your GHDL-Yosys-plugin install." ∧
    ∀ s w', NEORV32.init p v tc w fresh ≠ Except.ok (s, w') := by
  constructor
  · unfold NEORV32.init add_sources
    simp [if_pos h, conversionError]
  · intro s w' hok
    exact absurd ((init_ok_iff p v tc w fresh s w').mp hok).1 h

/-- C6 witness: a toolchain whose yosys call exits with status 1. -/
theorem c6_witness :
    NEORV32.init 0 "standard" ⟨fun _ => true, 1⟩ w0 0 =
      Except.error
        "Unable to convert NEORV32 CPU to verilog, please check your GHDL-Yosys-plugin install." ∧
    ∀ s w', NEORV32.init 0 "standard" ⟨fun _ => true, 1⟩ w0 0 ≠ Except.ok (s, w') :=
  c6_toolchain_error 0 "standard" ⟨fun _ => true, 1⟩ w0 0 (by decide)

/-- C7: the rendered yosys script opens with the GHDL line declaring
the VHDL-2008 standard, its `rtl/` source lines are exactly the
manifest in order (each exactly once), it elects `neorv32_cpu` as the
elaboration root, strips formal assertions via `chformal`, and writes
the artifact to `neorv32/neorv32.v`; on a zero exit status
`add_sources` registers exactly that artifact path with the platform
and records the script at `neorv32/neorv32.ys`. -/
theorem c7_script_contents (tc : Toolchain) (w : World)
    (h : tc.yosysExit = 0) :
    (buildYs sources).head? =
      some "ghdl --ieee=synopsys -fexplicit -frelaxed-rules --std=08 \\" ∧
    (buildYs sources).filter
        (fun l => sources.any (fun s => l == rtlPath s ++ " \\")) =
      sources.map (fun s => rtlPath s ++ " \\") ∧
    "-e neorv32_cpu" ∈ buildYs sources ∧
    "chformal -assert -remove" ∈ buildYs sources ∧
    ("write_verilog " ++ neorv32_v) ∈ buildYs sources ∧
    ∃ w', add_sources tc w = Except.ok w' ∧
      w'.platformSources = w.platformSources ++ [neorv32_v] ∧
      w'.script = some (neorv32_ys, buildYs sources) := by
  refine ⟨by decide, by decide, by decide, by decide, by decide, ?_⟩
  unfold add_sources
  simp [h]

/-- C7 witness: concrete succeeding toolchain on the empty world. -/
theorem c7_witness :
    (buildYs sources).head? =
      some "ghdl --ieee=synopsys -fexplicit -frelaxed-rules --std=08 \\" ∧
    (buildYs sources).filter
        (fun l => sources.any (fun s => l == rtlPath s ++ " \\")) =
      sources.map (fun s => rtlPath s ++ " \\") ∧
    "-e neorv32_cpu" ∈ buildYs sources ∧
    "chformal -assert -remove" ∈ buildYs sources ∧
    ("write_verilog " ++ neorv32_v) ∈ buildYs sources ∧
    ∃ w', add_sources tc0 w0 = Except.ok w' ∧
      w'.platformSources = w0.platformSources ++ [neorv32_v] ∧
      w'.script = some (neorv32_ys, buildYs sources) :=
  c7_script_contents tc0 w0 rfl

/-- C8 counterexample: there is no constructor configuration that
completes without invoking the conversion pipeline — every successful
construction increments the conversion counter, so neither an
acquisition-only mode nor a bring-your-own-artifact mode exists. -/
theorem c8_counterexample :
    ¬ ∃ (p : Nat) (v : String) (tc : Toolchain) (w : World) (fresh : Nat)
        (s : NEORV32) (w' : World),
      NEORV32.init p v tc w fresh = Except.ok (s, w') ∧
        w'.convertCount = w.convertCount := by
  rintro ⟨p, v, tc, w, fresh, s, w', hok, hc⟩
  obtain ⟨-, -, rfl⟩ := (init_ok_iff p v tc w fresh s w').mp hok
  exact Nat.succ_ne_self w.convertCount hc

/-- C8 amended: construction is never acquisition-only or
artifact-only: every successful `__init__` runs the download loop over
the manifest (the fetch counter grows by the number of missing files)
and invokes the conversion pipeline exactly once. -/
theorem c8_always_converts (p : Nat) (v : String) (tc : Toolchain)
    (w : World) (fresh : Nat) (s : NEORV32) (w' : World)
    (hok : NEORV32.init p v tc w fresh = Except.ok (s, w')) :
    w'.convertCount = w.convertCount + 1 ∧
    w'.fetchCount =
      w.fetchCount + (downloadLoop tc.transport sources w.files).2 := by
  obtain ⟨-, -, rfl⟩ := (init_ok_iff p v tc w fresh s w').mp hok
  exact ⟨rfl, rfl⟩

/-- C8 witness: a concrete successful construction converts once and
fetches all 12 files from an empty directory. -/
theorem c8_witness :
    ∃ s w', NEORV32.init 1 "standard" tc0 w0 0 = Except.ok (s, w') ∧
      w'.convertCount = w0.convertCount + 1 ∧
      w'.fetchCount =
        w0.fetchCount + (downloadLoop tc0.transport sources w0.files).2 := by
  refine ⟨_, _, (init_ok_iff 1 "standard" tc0 w0 0 _ _).mpr ⟨rfl, rfl, rfl⟩, ?_⟩
  exact c8_always_converts 1 "standard" tc0 w0 0 _ _
    ((init_ok_iff 1 "standard" tc0 w0 0 _ _).mpr ⟨rfl, rfl, rfl⟩)

/-- Updating the single-entry `p_RESET_PC` dict replaces the value. -/
theorem updateParam_single (x a : Nat) :
    updateParam [("p_RESET_PC", x)] "p_RESET_PC" a = [("p_RESET_PC", a)] := by
  simp [updateParam]

/-- Updating the empty dict appends the entry. -/
theorem updateParam_nil (a : Nat) :
    updateParam [] "p_RESET_PC" a = [("p_RESET_PC", a)] := by
  simp [updateParam]

/-- Replacing the value at key `k` leaves the other-key entries of the
dict untouched. -/
theorem filter_map_update (k : String) (v : Nat) (qs : List (String × Nat)) :
    (qs.map (fun p => if p.1 == k then (k, v) else p)).filter
        (fun p => !(p.1 == k)) =
      qs.filter (fun p => !(p.1 == k)) := by
  induction qs with
  | nil => rfl
  | cons q qs ih =>
    by_cases hq : q.1 = k
    · simp only [List.map_cons, List.filter_cons]
      simp [hq]
      simpa using ih
    · simp only [List.map_cons, List.filter_cons]
      simp [hq]
      simpa using ih

/-- `updateParam` leaves every entry with a different key unchanged. -/
theorem updateParam_filter_ne (ps : List (String × Nat)) (k : String) (v : Nat) :
    (updateParam ps k v).filter (fun p => !(p.1 == k)) =
      ps.filter (fun p => !(p.1 == k)) := by
  unfold updateParam
  by_cases hany : ps.any (fun p => p.1 == k)
  · simpa [hany] using filter_map_update k v ps
  · simp [hany, List.filter_append]

/-- After a `set_reset_address` starting from a single-entry
`p_RESET_PC` dict, folding further calls keeps a single entry holding
the last address. -/
theorem foldl_set_reset_params (addrs : List Nat) :
    ∀ (s : NEORV32) (x : Nat), s.cpu_params = [("p_RESET_PC", x)] →
      (addrs.foldl NEORV32.set_reset_address s).cpu_params =
        [("p_RESET_PC", addrs.getLast?.getD x)] := by
  induction addrs with
  | nil => intro s x hx; simpa using hx
  | cons a rest ih =>
    intro s x hx
    have hstep : (s.set_reset_address a).cpu_params = [("p_RESET_PC", a)] := by
      simp [NEORV32.set_reset_address, hx, updateParam_single]
    have := ih (s.set_reset_address a) a hstep
    rw [List.foldl_cons, this]
    cases rest with
    | nil => rfl
    | cons b r => simp [List.getLast?]

/-- Folding `set_reset_address` also sets `reset_address` to the last
address. -/
theorem foldl_set_reset_address (addrs : List Nat) :
    ∀ (s : NEORV32) (x : Nat), s.reset_address = some x →
      (addrs.foldl NEORV32.set_reset_address s).reset_address =
        some (addrs.getLast?.getD x) := by
  induction addrs with
  | nil => intro s x hx; simpa using hx
  | cons a rest ih =>
    intro s x hx
    have := ih (s.set_reset_address a) a (by simp [NEORV32.set_reset_address])
    rw [List.foldl_cons, this]
    cases rest with
    | nil => rfl
    | cons b r => simp [List.getLast?]

/-- Folding `set_reset_address` never touches the bus fields. -/
theorem foldl_set_reset_frame (addrs : List Nat) :
    ∀ s : NEORV32,
      (addrs.foldl NEORV32.set_reset_address s).platform = s.platform ∧
      (addrs.foldl NEORV32.set_reset_address s).variant = s.variant ∧
      (addrs.foldl NEORV32.set_reset_address s).reset = s.reset ∧
      (addrs.foldl NEORV32.set_reset_address s).ibus = s.ibus ∧
      (addrs.foldl NEORV32.set_reset_address s).dbus = s.dbus ∧
      (addrs.foldl NEORV32.set_reset_address s).periph_buses = s.periph_buses ∧
      (addrs.foldl NEORV32.set_reset_address s).memory_buses = s.memory_buses ∧
      (addrs.foldl NEORV32.set_reset_address s).specials = s.specials := by
  induction addrs with
  | nil => intro s; simp
  | cons a rest ih =>
    intro s
    have h := ih (s.set_reset_address a)
    simpa [NEORV32.set_reset_address] using h

/-- C4: on a freshly constructed descriptor (reset address unset,
empty parameter dict), `do_finalize` fails with the assertion error;
after any non-empty sequence of `set_reset_address` calls it succeeds
and appends the `Instance("neorv32_cpu", ...)` record whose single
`p_RESET_PC` parameter is the last address passed. -/
theorem c4_finalize_gate (p : Nat) (v : String) (tc : Toolchain) (w : World)
    (fresh : Nat) (s : NEORV32) (w' : World)
    (hok : NEORV32.init p v tc w fresh = Except.ok (s, w')) :
    (∃ e, s.do_finalize = Except.error e) ∧
    ∀ (addrs : List Nat) (l : Nat), addrs.getLast? = some l →
      ∃ s', (addrs.foldl NEORV32.set_reset_address s).do_finalize =
          Except.ok s' ∧
        s'.specials = s.specials ++ [("neorv32_cpu", [("p_RESET_PC", l)])] := by
  obtain ⟨-, hs, -⟩ := (init_ok_iff p v tc w fresh s w').mp hok
  have hsP : s.cpu_params = [] := by rw [hs]
  have hsA : s.reset_address = none := by rw [hs]
  constructor
  · exact ⟨"AssertionError: finalize before set_reset_address", by
      unfold NEORV32.do_finalize; rw [hsA]⟩
  · intro addrs l hl
    cases addrs with
    | nil => cases hl
    | cons a rest =>
      rw [List.foldl_cons]
      have hstepP : (s.set_reset_address a).cpu_params = [("p_RESET_PC", a)] := by
        simp [NEORV32.set_reset_address, hsP, updateParam]
      have hlast : rest.getLast?.getD a = l := by
        cases rest with
        | nil => simpa using hl
        | cons b r =>
          rw [List.getLast?_cons_cons] at hl
          rw [hl]
          rfl
      have hP := foldl_set_reset_params rest (s.set_reset_address a) a hstepP
      have hA := foldl_set_reset_address rest (s.set_reset_address a) a
        (by simp [NEORV32.set_reset_address])
      have hF := (foldl_set_reset_frame rest (s.set_reset_address a)).2.2.2.2.2.2.2
      rw [hlast] at hP hA
      refine ⟨{ List.foldl NEORV32.set_reset_address (s.set_reset_address a) rest with
                specials :=
                  (List.foldl NEORV32.set_reset_address (s.set_reset_address a) rest).specials
                    ++ [("neorv32_cpu",
                        (List.foldl NEORV32.set_reset_address (s.set_reset_address a) rest).cpu_params)] },
        ?_, ?_⟩
      · unfold NEORV32.do_finalize
        rw [hA]
        simp [hA]
      · rw [hP, hF]
        simp [NEORV32.set_reset_address]

/-- The descriptor produced by a concrete successful construction
(`platform` id 7, variant "standard", allocation counter 0). -/
def d0 : NEORV32 :=
  { platform := 7, variant := "standard", reset := 0, ibus := 1, dbus := 2,
    periph_buses := [1, 2], memory_buses := [], cpu_params := [],
    reset_address := none, specials := [] }

/-- The world produced by that concrete construction. -/
def w1 : World :=
  { files := (downloadLoop tc0.transport sources w0.files).1
    fetchCount := w0.fetchCount + (downloadLoop tc0.transport sources w0.files).2
    convertCount := w0.convertCount + 1
    platformSources := w0.platformSources ++ [neorv32_v]
    script := some (neorv32_ys, buildYs sources) }

/-- C4 witness: the concrete constructed descriptor fails finalize
before any `set_reset_address` and succeeds after any non-empty
sequence of calls, recording the last address. -/
theorem c4_witness :
    (∃ e, d0.do_finalize = Except.error e) ∧
    ∀ (addrs : List Nat) (l : Nat), addrs.getLast? = some l →
      ∃ s', (addrs.foldl NEORV32.set_reset_address d0).do_finalize =
          Except.ok s' ∧
        s'.specials = d0.specials ++ [("neorv32_cpu", [("p_RESET_PC", l)])] :=
  c4_finalize_gate 7 "standard" tc0 w0 0 d0 w1 rfl

/-- C9: a successfully constructed descriptor has exactly the two
fresh Wishbone endpoints, `periph_buses = [ibus, dbus]` in that order
and `memory_buses = []`, with the two interfaces distinct (distinct
allocation ids above the construction-time counter); and neither
`set_reset_address` nor `do_finalize` reassigns or mutates any bus
field of any descriptor. -/
theorem c9_bus_endpoints (p : Nat) (v : String) (tc : Toolchain) (w : World)
    (fresh : Nat) (s : NEORV32) (w' : World)
    (hok : NEORV32.init p v tc w fresh = Except.ok (s, w')) :
    s.periph_buses = [s.ibus, s.dbus] ∧
    s.memory_buses = [] ∧
    s.ibus ≠ s.dbus ∧
    s.ibus = fresh + 1 ∧ s.dbus = fresh + 2 ∧
    (∀ (u : NEORV32) (a : Nat),
      (u.set_reset_address a).ibus = u.ibus ∧
      (u.set_reset_address a).dbus = u.dbus ∧
      (u.set_reset_address a).periph_buses = u.periph_buses ∧
      (u.set_reset_address a).memory_buses = u.memory_buses) ∧
    ∀ (u u' : NEORV32), u.do_finalize = Except.ok u' →
      u'.ibus = u.ibus ∧ u'.dbus = u.dbus ∧
      u'.periph_buses = u.periph_buses ∧ u'.memory_buses = u.memory_buses := by
  obtain ⟨-, hs, -⟩ := (init_ok_iff p v tc w fresh s w').mp hok
  subst hs
  refine ⟨rfl, rfl, by simp, rfl, rfl, ?_, ?_⟩
  · intro u a
    exact ⟨rfl, rfl, rfl, rfl⟩
  · intro u u' h
    unfold NEORV32.do_finalize at h
    split at h
    · cases h
    · cases h
      exact ⟨rfl, rfl, rfl, rfl⟩

/-- C9 witness: the concrete constructed descriptor. -/
theorem c9_witness :
    d0.periph_buses = [d0.ibus, d0.dbus] ∧
    d0.memory_buses = [] ∧
    d0.ibus ≠ d0.dbus ∧
    d0.ibus = 0 + 1 ∧ d0.dbus = 0 + 2 ∧
    (∀ (u : NEORV32) (a : Nat),
      (u.set_reset_address a).ibus = u.ibus ∧
      (u.set_reset_address a).dbus = u.dbus ∧
      (u.set_reset_address a).periph_buses = u.periph_buses ∧
      (u.set_reset_address a).memory_buses = u.memory_buses) ∧
    ∀ (u u' : NEORV32), u.do_finalize = Except.ok u' →
      u'.ibus = u.ibus ∧ u'.dbus = u.dbus ∧
      u'.periph_buses = u.periph_buses ∧ u'.memory_buses = u.memory_buses :=
  c9_bus_endpoints 7 "standard" tc0 w0 0 d0 w1 rfl

/-- C10: `set_reset_address a` changes only `reset_address` (to
`some a`) and the `p_RESET_PC` entry of `cpu_params`: platform,
variant, reset signal, both buses, both bus lists and the emitted
specials are untouched, every `cpu_params` entry under a different key
is untouched, and — starting from the construction-time empty dict —
after any non-empty sequence of calls the dict holds `p_RESET_PC` as
its only key, bound to the last address. -/
theorem c10_set_reset_frame (s : NEORV32) (a : Nat) (h : s.cpu_params = []) :
    (s.set_reset_address a).platform = s.platform ∧
    (s.set_reset_address a).variant = s.variant ∧
    (s.set_reset_address a).reset = s.reset ∧
    (s.set_reset_address a).ibus = s.ibus ∧
    (s.set_reset_address a).dbus = s.dbus ∧
    (s.set_reset_address a).periph_buses = s.periph_buses ∧
    (s.set_reset_address a).memory_buses = s.memory_buses ∧
    (s.set_reset_address a).specials = s.specials ∧
    (s.set_reset_address a).reset_address = some a ∧
    (∀ (u : NEORV32) (b : Nat),
      (u.set_reset_address b).cpu_params.filter
          (fun q => !(q.1 == "p_RESET_PC")) =
        u.cpu_params.filter (fun q => !(q.1 == "p_RESET_PC"))) ∧
    ∀ (addrs : List Nat) (l : Nat), addrs.getLast? = some l →
      (addrs.foldl NEORV32.set_reset_address s).cpu_params =
        [("p_RESET_PC", l)] := by
  refine ⟨rfl, rfl, rfl, rfl, rfl, rfl, rfl, rfl, rfl, ?_, ?_⟩
  · intro u b
    exact updateParam_filter_ne u.cpu_params "p_RESET_PC" b
  · intro addrs l hl
    cases addrs with
    | nil => cases hl
    | cons b rest =>
      rw [List.foldl_cons]
      have hstepP : (s.set_reset_address b).cpu_params = [("p_RESET_PC", b)] := by
        simp [NEORV32.set_reset_address, h, updateParam]
      have hlast : rest.getLast?.getD b = l := by
        cases rest with
        | nil => simpa using hl
        | cons c r =>
          rw [List.getLast?_cons_cons] at hl
          rw [hl]
          rfl
      have hP := foldl_set_reset_params rest (s.set_reset_address b) b hstepP
      rw [hlast] at hP
      exact hP

/-- C10 witness: the concrete constructed descriptor with the reset
vector `0x80000000`. -/
theorem c10_witness :
    (d0.set_reset_address 2147483648).platform = d0.platform ∧
    (d0.set_reset_address 2147483648).variant = d0.variant ∧
    (d0.set_reset_address 2147483648).reset = d0.reset ∧
    (d0.set_reset_address 2147483648).ibus = d0.ibus ∧
    (d0.set_reset_address 2147483648).dbus = d0.dbus ∧
    (d0.set_reset_address 2147483648).periph_buses = d0.periph_buses ∧
    (d0.set_reset_address 2147483648).memory_buses = d0.memory_buses ∧
    (d0.set_reset_address 2147483648).specials = d0.specials ∧
    (d0.set_reset_address 2147483648).reset_address = some 2147483648 ∧
    (∀ (u : NEORV32) (b : Nat),
      (u.set_reset_address b).cpu_params.filter
          (fun q => !(q.1 == "p_RESET_PC")) =
        u.cpu_params.filter (fun q => !(q.1 == "p_RESET_PC"))) ∧
    ∀ (addrs : List Nat) (l : Nat), addrs.getLast? = some l →
      (addrs.foldl NEORV32.set_reset_address d0).cpu_params =
        [("p_RESET_PC", l)] :=
  c10_set_reset_frame d0 2147483648 rfl

end Neorv32
